import Mathlib

/-!
Verification development for the aya-dance-server caching edge.

Strings are modelled as `List Char` (`Str`); machine integers as `Nat`/`Int`
with explicit `% 2 ^ 64` where u64 wrap-around matters.  External library
functions (the `md5` crate) are abstracted as function parameters; the
filesystem is an explicit record of probe/read functions; the clock is an
explicit `Int` parameter.  All definitions mirror the Rust sources in
`src/cdn/mod.rs`, `src/cdn/range.rs`, `src/cdn/proxy/mod.rs`,
`src/http/mod.rs` and `src/types/timedmap/timedmap.rs`.
-/

/-- Rust strings modelled as lists of characters. -/
abbrev Str := List Char

/-- Shorthand turning a Lean string literal into the `Str` model. -/
def str (s : String) : Str := s.toList

/-- Model of Rust `str::split('-')`: splitting never yields an empty list,
adjacent separators produce empty segments, and the empty string yields
one empty segment. -/
def splitOnDash : Str → List Str
  | [] => [[]]
  | c :: rest =>
    if c = '-' then [] :: splitOnDash rest
    else
      match splitOnDash rest with
      | [] => [[c]]
      | s :: ss => (c :: s) :: ss

/-- Decimal digit list of a natural number, most significant first;
fuel-based so that it reduces in the kernel.  The fuel is always
sufficient because `natDigits` passes `n + 1`. -/
def natDigitsAux : Nat → Nat → List Nat
  | 0, _ => []
  | fuel + 1, n => if n < 10 then [n] else natDigitsAux fuel (n / 10) ++ [n % 10]

/-- Decimal digits of `n`, most significant first. -/
def natDigits (n : Nat) : List Nat := natDigitsAux (n + 1) n

/-- The ASCII character of a decimal digit. -/
def digitChar (d : Nat) : Char := Char.ofNat (48 + d)

/-- Model of Rust `format!` of a `u64`/`u32` (decimal). -/
def natRepr (n : Nat) : Str := (natDigits n).map digitChar

/-- Model of Rust `format!` of an `i64` (decimal, sign prepended). -/
def intRepr (i : Int) : Str :=
  if i < 0 then '-' :: natRepr i.natAbs else natRepr i.toNat

/-- The numeric value of an ASCII decimal digit, `none` otherwise. -/
def digitVal (c : Char) : Option Nat :=
  if 48 ≤ c.toNat ∧ c.toNat ≤ 57 then some (c.toNat - 48) else none

/-- Accumulating decimal parser over a digit string; fails on the first
non-digit character. -/
def parseDigitsAux : Nat → Str → Option Nat
  | acc, [] => some acc
  | acc, c :: rest =>
    match digitVal c with
    | some d => parseDigitsAux (acc * 10 + d) rest
    | none => none

/-- Decimal parser: the empty string is rejected. -/
def parseDigits : Str → Option Nat
  | [] => none
  | c :: rest => parseDigitsAux 0 (c :: rest)

/-- Rust unsigned `from_str` accepts one optional leading plus sign. -/
def stripPlus : Str → Str
  | [] => []
  | c :: rest => if c = '+' then rest else c :: rest

/-- Model of Rust `str::parse::<u64>()`: optional `+`, decimal digits,
overflow above `u64::MAX` rejected. -/
def parseU64 (s : Str) : Option Nat :=
  (parseDigits (stripPlus s)).bind fun n =>
    if n < 2 ^ 64 then some n else none

/-- Model of Rust `str::parse::<u32>()`. -/
def parseU32 (s : Str) : Option Nat :=
  (parseDigits (stripPlus s)).bind fun n =>
    if n < 2 ^ 32 then some n else none

/-- Model of `i64::from_str_radix(s, 10)`: optional sign, decimal digits,
result within the i64 range. -/
def parseI64 (s : Str) : Option Int :=
  match s with
  | [] => none
  | c :: rest =>
    if c = '-' then
      (parseDigits rest).bind fun n =>
        if n ≤ 2 ^ 63 then some (-(n : Int)) else none
    else if c = '+' then
      (parseDigits rest).bind fun n =>
        if n ≤ 2 ^ 63 - 1 then some ((n : Int)) else none
    else
      (parseDigits (c :: rest)).bind fun n =>
        if n ≤ 2 ^ 63 - 1 then some ((n : Int)) else none

/-- Model of Rust `str::replace(pat, rep)` (leftmost, non-overlapping);
fuel-based so that it reduces in the kernel, with fuel `s.length + 1`
always sufficient. -/
def strReplaceAux : Nat → Str → Str → Str → Str
  | 0, s, _, _ => s
  | fuel + 1, s, pat, rep =>
    match s with
    | [] => []
    | c :: rest =>
      if pat ≠ [] ∧ pat.isPrefixOf (c :: rest) then
        rep ++ strReplaceAux fuel ((c :: rest).drop pat.length) pat rep
      else
        c :: strReplaceAux fuel rest pat rep

/-- Rust `str::replace`. -/
def strReplace (s pat rep : Str) : Str := strReplaceAux (s.length + 1) s pat rep

/-- Repeatedly strips `pat` (given reversed) from the front of a reversed
string: the engine of `trim_end_matches`.  Fuel-based. -/
def stripRevAux : Nat → Str → Str → Str
  | 0, s, _ => s
  | fuel + 1, s, pat =>
    if pat ≠ [] ∧ pat.isPrefixOf s then stripRevAux fuel (s.drop pat.length) pat
    else s

/-- Model of Rust `str::trim_end_matches(pat)`: removes every trailing
occurrence of `pat`. -/
def trimEndMatches (s pat : Str) : Str :=
  (stripRevAux (s.length + 1) s.reverse pat.reverse).reverse

/-- UTF-8 encoding of one scalar value (Rust `String::as_bytes` applied
per character). -/
def utf8Bytes (c : Char) : List Nat :=
  let n := c.toNat
  if n < 128 then [n]
  else if n < 2048 then [192 + n / 64, 128 + n % 64]
  else if n < 65536 then [224 + n / 4096, 128 + n / 64 % 64, 128 + n % 64]
  else [240 + n / 262144, 128 + n / 4096 % 64, 128 + n / 64 % 64, 128 + n % 64]

/-- UTF-8 byte sequence of a string. -/
def strBytes (s : Str) : List Nat := (s.map utf8Bytes).flatten

/-- One character of the URL-safe base64 alphabet. -/
def b64char (n : Nat) : Char :=
  if n < 26 then Char.ofNat (65 + n)
  else if n < 52 then Char.ofNat (97 + (n - 26))
  else if n < 62 then Char.ofNat (48 + (n - 52))
  else if n = 62 then '-'
  else '_'

/-- Model of `base64_url::encode` (URL-safe alphabet, no padding). -/
def base64urlEncode : List Nat → Str
  | [] => []
  | [b1] => [b64char (b1 / 4 % 64), b64char (b1 % 4 * 16)]
  | [b1, b2] => [b64char (b1 / 4 % 64), b64char (b1 % 4 * 16 + b2 / 16), b64char (b2 % 16 * 4)]
  | b1 :: b2 :: b3 :: rest =>
    b64char (b1 / 4 % 64) :: b64char (b1 % 4 * 16 + b2 / 16) ::
      b64char (b2 % 16 * 4 + b3 / 64) :: b64char (b3 % 64) :: base64urlEncode rest

/-! ## TokenCodec (`src/cdn/mod.rs`, `impl CdnServiceImpl`)

The `md5` crate is external to the repository; `generate_sign` is therefore
parameterised by the hex-MD5 function `md5hex` (the composition
`format!("{:x}", md5::compute(_))`). -/

/-- Model of client IPs as rendered by `IpAddr::to_string` (v4). -/
inductive IpAddr where
  | v4 (a b c d : Nat)
deriving DecidableEq

/-- Rust `IpAddr::to_string()` for a v4 address: dotted quad. -/
def ipDisplay : IpAddr → Str
  | .v4 a b c d =>
    natRepr a ++ '.' :: (natRepr b ++ '.' :: (natRepr c ++ '.' :: natRepr d))

/-- `CdnServiceImpl::encode_token`: `format!("{}-{}-{}-{}", sign_ts, rand, uid, sign)`. -/
def encode_token (sign sign_ts rand uid : Str) : Str :=
  sign_ts ++ '-' :: (rand ++ '-' :: (uid ++ '-' :: sign))

/-- `CdnServiceImpl::decode_token`: takes the first four `'-'`-separated
fields (any further fields are ignored by the iterator), returned in the
order `(sign, sign_ts, rand, uid)`. -/
def decode_token (token : Str) : Option (Str × Str × Str × Str) :=
  match splitOnDash token with
  | sign_ts :: rand :: uid :: sign :: _ => some (sign, sign_ts, rand, uid)
  | _ => none

/-- `CdnServiceImpl::decode_sign_ts`: `i64::from_str_radix(ts, 10)`. -/
def decode_sign_ts (ts : Str) : Option Int := parseI64 ts

/-- `CdnServiceImpl::generate_sign`:
`md5_hex("/v/{id}-{checksum}.mp4-{sign_ts}-{rand}-{uid}-{secret}")`. -/
def generate_sign (md5hex : Str → Str) (secret : Str) (id : Nat)
    (checksum sign_ts rand uid : Str) : Str :=
  md5hex (str "/v/" ++ natRepr id ++ '-' :: (checksum ++ str ".mp4")
    ++ '-' :: (sign_ts ++ '-' :: (rand ++ '-' :: (uid ++ '-' :: secret))))

/-- `CdnServiceImpl::verify_token`; `true` models `Ok(())`, `false` any
of the error returns (malformed, signature mismatch, expired). -/
def verify_token (md5hex : Str → Str) (token secret : Str) (id : Nat)
    (checksum : Str) (token_valid_seconds now : Int) : Bool :=
  match decode_token token with
  | none => false
  | some (sign, sign_ts, rand, uid) =>
    let sign_verify := generate_sign md5hex secret id checksum sign_ts rand uid
    if sign_verify ≠ sign then false
    else
      match decode_sign_ts sign_ts with
      | none => false
      | some provided_ts =>
        if now - provided_ts > token_valid_seconds then false else true

/-- `CdnServiceImpl::generate_rand_from_user_agent`: URL-safe base64 of
the UTF-8 bytes of the User-Agent. -/
def generate_rand_from_user_agent (user_agent : Str) : Str :=
  base64urlEncode (strBytes user_agent)

/-- `CdnServiceImpl::generate_uid_from_client_ip`:
`remote.to_string().replace(".", "_")` (a single-character pattern, so the
replacement is the pointwise substitution of `'.'` by `'_'`). -/
def generate_uid_from_client_ip (remote : IpAddr) : Str :=
  (ipDisplay remote).map fun c => if c = '.' then '_' else c

/-! ## CacheIndex (`src/cdn/mod.rs`) -/

/-- `aya_dance_types::Song` (crates/aya-dance-types).  The `volume: f32`
field is modelled as `Nat`: the only value the edge ever writes is the
constant `0.0` and no claim inspects it.  The source field `end` is a Lean
keyword and is modelled as `stop`. -/
structure Song where
  id : Nat
  category : Nat
  title : Str
  category_name : Str
  title_spell : Str
  player_index : Nat
  volume : Nat
  start : Nat
  stop : Nat
  flip : Bool
  skip_random : Bool
  original_url : Option (List Str)
  checksum : Option Str
deriving DecidableEq

/-- Filesystem probe interface used by `CdnServiceImpl`:
`present` is `Path::exists`, `fileLen` is `fs::metadata(_).len()` (`none`
models an I/O error), `mtimeSecs` the modified time as Unix seconds, and
`readSong` is `File::open` followed by the serde-JSON parse of a `Song`
(`none` models either failure). -/
structure Fs where
  present : Str → Bool
  fileLen : Str → Option Nat
  mtimeSecs : Str → Option Nat
  readSong : Str → Option Song

/-- `CachedVideo` from `src/cdn/mod.rs`. -/
inductive CachedVideo where
  | video (video_file metadata_json_file : Str)
  | videoOverride (video_file : Str)
deriving DecidableEq

/-- `CachedVideoFile` from `src/cdn/mod.rs`. -/
inductive CachedVideoFile where
  | available (v : CachedVideo)
  | unavailable (video_file metadata_json_file : Str)
deriving DecidableEq

/-- Path `{video_path}/{id}/metadata.json`. -/
def metadataJsonPath (video_path : Str) (id : Nat) : Str :=
  video_path ++ '/' :: (natRepr id ++ str "/metadata.json")

/-- Path `{video_path}/{id}/video.mp4`. -/
def videoMp4Path (video_path : Str) (id : Nat) : Str :=
  video_path ++ '/' :: (natRepr id ++ str "/video.mp4")

/-- Path `{video_override_path}/{id}.mp4`. -/
def overrideMp4Path (video_override_path : Str) (id : Nat) : Str :=
  video_override_path ++ '/' :: (natRepr id ++ str ".mp4")

/-- `CdnServiceImpl::get_video_file_path`: probe the override file first,
then the canonical pair. -/
def get_video_file_path (fs : Fs) (video_path video_override_path : Str)
    (id : Nat) : CachedVideoFile :=
  let metadata_json := metadataJsonPath video_path id
  let video_mp4 := videoMp4Path video_path id
  let override_mp4 := overrideMp4Path video_override_path id
  if fs.present override_mp4 then
    .available (.videoOverride override_mp4)
  else if fs.present metadata_json ∧ fs.present video_mp4 then
    .available (.video video_mp4 metadata_json)
  else
    .unavailable video_mp4 metadata_json

/-- `CdnServiceImpl::get_video_file_checksum_by_cached_video` (`Result`
modelled as `Option`): override entries derive
`"override{mtime_seconds}"`, canonical entries read the `checksum` field
of `metadata.json`. -/
def get_video_file_checksum (fs : Fs) : CachedVideo → Option Str
  | .videoOverride video_file =>
    (fs.mtimeSecs video_file).map fun t => str "override" ++ natRepr t
  | .video _ metadata_json_file =>
    (fs.readSong metadata_json_file).bind fun s => s.checksum

/-- `CdnFetchResult` from `src/cdn/mod.rs`. -/
inductive CdnFetchResult where
  | hit (token checksum : Str) (ts : Int) (sign sign_ts : Str)
  | miss
deriving DecidableEq

/-- `CdnServiceImpl::serve_token` (the clock `now` replaces
`chrono::Utc::now().timestamp()`; the function never returns `Err`). -/
def serve_token (md5hex : Str → Str) (fs : Fs)
    (video_path video_override_path secret : Str)
    (id : Nat) (remote : IpAddr) (user_agent : Str) (now : Int) : CdnFetchResult :=
  match get_video_file_path fs video_path video_override_path id with
  | .available video =>
    match get_video_file_checksum fs video with
    | some checksum =>
      let sign_ts := intRepr now
      let rand := generate_rand_from_user_agent user_agent
      let uid := generate_uid_from_client_ip remote
      let sign := generate_sign md5hex secret id checksum sign_ts rand uid
      .hit (encode_token sign sign_ts rand uid) checksum now sign sign_ts
    | none => .miss
  | _ => .miss

/-- `CdnServiceImpl::serve_local_cache`: returns
`(download_tmp, video_path, metadata_path, satisfied)`.  The two source
failure branches for `metadata.json` (open error, parse error) are both
`fs.readSong _ = none` here. -/
def serve_local_cache (fs : Fs) (video_path video_override_path cache_path : Str)
    (id : Nat) (file md5 : Str) (size : Nat) (remotePort : Nat) :
    Str × Str × Str × Bool :=
  let download_tmp_file := cache_path ++ '/' :: (natRepr remotePort ++ '_' :: file)
  match get_video_file_path fs video_path video_override_path id with
  | .available (.videoOverride video_file) =>
    (download_tmp_file, video_file, [], true)
  | .available (.video video_file metadata_json_file) =>
    if (fs.fileLen video_file).getD 0 ≠ size then
      (download_tmp_file, video_file, metadata_json_file, false)
    else
      match fs.readSong metadata_json_file with
      | none => (download_tmp_file, video_file, metadata_json_file, false)
      | some x =>
        match x.checksum with
        | some c =>
          if c = md5 then (download_tmp_file, video_file, metadata_json_file, true)
          else (download_tmp_file, video_file, metadata_json_file, false)
        | none => (download_tmp_file, video_file, metadata_json_file, false)
  | .unavailable video_file metadata_json_file =>
    (download_tmp_file, video_file, metadata_json_file, false)

/-! ## RangeServer (`src/cdn/range.rs`)

u64 arithmetic is modelled with explicit wrap-around modulo `2 ^ 64`,
matching the release-build semantics of the deployed binary; the
`_ck` twins model the same subtractions as checked operations (`none`
models the debug-build overflow abort), which is what the underflow
claims interrogate. -/

/-- Wrapping u64 subtraction (operands below `2 ^ 64`). -/
def u64sub (a b : Nat) : Nat := (a + 2 ^ 64 - b) % 2 ^ 64

/-- Wrapping u64 addition. -/
def u64add (a b : Nat) : Nat := (a + b) % 2 ^ 64

/-- Checked u64 subtraction: `none` models the overflow abort of a
debug build. -/
def checkedSub (a b : Nat) : Option Nat := if b ≤ a then some (a - b) else none

/-- The segment list of a Range header: `replace("bytes=", "")`, split on
`"-"`, empty segments dropped (`filter_map` keeping `n.len() > 0`). -/
def rangeSegments (range : Str) : List Str :=
  (splitOnDash (strReplace range (str "bytes=") [])).filter fun n => n.length > 0

/-- `get_range_params` from `src/cdn/range.rs`: start defaults to `0`,
end defaults to `size - 1` (wrapping); `Err` on a segment that fails to
parse as u64.  The source indexes `range[0]` / `range[1]` under
`len() > 0` / `len() > 1` guards, rendered here as a match on the
segment list. -/
def get_range_params (range : Option Str) (size : Nat) : Except Unit (Nat × Nat) :=
  match range with
  | some r =>
    match rangeSegments r with
    | [] => .ok (0, u64sub size 1)
    | s0 :: rest =>
      match parseU64 s0 with
      | none => .error ()
      | some start =>
        match rest with
        | [] => .ok (start, u64sub size 1)
        | s1 :: _ =>
          match parseU64 s1 with
          | none => .error ()
          | some e => .ok (start, e)
  | none => .ok (0, u64sub size 1)

/-- Checked-subtraction twin of `get_range_params`: the outer `none`
models an arithmetic underflow abort in `size - 1`. -/
def get_range_params_ck (range : Option Str) (size : Nat) :
    Option (Except Unit (Nat × Nat)) :=
  match range with
  | some r =>
    match rangeSegments r with
    | [] => (checkedSub size 1).map fun e => .ok (0, e)
    | s0 :: rest =>
      match parseU64 s0 with
      | none => some (.error ())
      | some start =>
        match rest with
        | [] => (checkedSub size 1).map fun e => .ok (start, e)
        | s1 :: _ =>
          match parseU64 s1 with
          | none => some (.error ())
          | some e => some (.ok (start, e))
  | none => (checkedSub size 1).map fun e => .ok (0, e)

/-- True iff none of the u64 subtractions executed on the
`internal_get_range` path underflows: the defaulted `size - 1` inside
`get_range_params` and the `end_range - start_range` of `byte_count`. -/
def rangeNoUnderflow (range : Option Str) (size : Nat) : Bool :=
  match get_range_params_ck range size with
  | none => false
  | some (.error _) => true
  | some (.ok (s, e)) => decide (s ≤ e)

/-- `file.read_exact(&mut buffer)` on a file of content `file` with the
cursor at `pos` and a buffer of size `k`: fills the buffer completely or
fails (the source calls `.unwrap()` on the result). -/
def readExact (file : List Nat) (pos k : Nat) : Option (List Nat) :=
  if pos + k ≤ file.length then some ((file.drop pos).take k) else none

/-- The chunked body loop of `internal_get_range`: `cycles` iterations,
each reading `min(byte_count - sent_bytes, 16384)` bytes; `none` models
the `.unwrap()` abort of a failed `read_exact`. -/
def pumpBody (file : List Nat) (byteCount : Nat) :
    Nat → Nat → Nat → Option (List Nat)
  | 0, _, _ => some []
  | cycles + 1, pos, sent =>
    let k := min (u64sub byteCount sent) 16384
    match readExact file pos k with
    | none => none
    | some chunk =>
      match pumpBody file byteCount cycles (pos + k) (sent + k) with
      | none => none
      | some rest => some (chunk ++ rest)

/-- Observable outcome of `internal_get_range`. -/
inductive RangeOutcome where
  | ioError
  | rangeError
  | response (status : Nat) (contentLength : Nat) (contentRange : Str)
      (body : Option (List Nat))
deriving DecidableEq

/-- `internal_get_range` from `src/cdn/range.rs` over a file modelled by
its byte content (`none` models an open/metadata I/O failure).  The
`Content-Range` header is `bytes {start}-{end}/{size}`, `Content-Length`
is `byte_count`, the status is 206 exactly when a Range header was
present, and the body is produced by the 16 KiB chunk loop. -/
def internal_get_range (file : Option (List Nat)) (range_header : Option Str) :
    RangeOutcome :=
  match file with
  | none => .ioError
  | some f =>
    let size := f.length
    match get_range_params range_header size with
    | .error _ => .rangeError
    | .ok (start_range, end_range) =>
      let byte_count := u64add (u64sub end_range start_range) 1
      let cycles := byte_count / 16384 + 1
      let body := pumpBody f byte_count cycles start_range 0
      .response (if range_header.isSome then 206 else 200) byte_count
        (str "bytes " ++ natRepr start_range ++ '-' ::
          (natRepr end_range ++ '/' :: natRepr size))
        body

/-! ## Fetcher (`src/cdn/proxy/mod.rs`)

The filesystem is an explicit map from paths to file data; the
serde-JSON round trip of `metadata.json` is modelled by storing the
`Song` value itself.  I/O failures of the individual operations are
injected through explicit fault flags. -/

/-- Content of a file on disk: raw bytes, or the serialised `Song` of a
synthesised `metadata.json`. -/
inductive FileData where
  | bytes (bs : List Nat)
  | songJson (s : Song)
deriving DecidableEq

/-- A disk is a partial map from paths to file data. -/
abbrev Disk := Str → Option FileData

/-- Pointwise update of a disk. -/
def diskWrite (d : Disk) (p : Str) (v : Option FileData) : Disk :=
  fun q => if q = p then v else d q

/-- Fault flags for the filesystem operations of
`publish_to_local_videos`: reading the temp file, the copy to the cache
path, the removal of the temp file, and the metadata write. -/
structure PublishFaults where
  readOk : Bool
  copyOk : Bool
  removeOk : Bool
  writeMetaOk : Bool
deriving DecidableEq

/-- The synthetic `Song` metadata written by `publish_to_local_videos`. -/
def mkPublishedSong (id : Nat) (etag : Str) : Song :=
  { id := id, category := 114514, title := natRepr id, category_name := [],
    title_spell := [], player_index := 0, volume := 0, start := 0, stop := 0,
    flip := false, skip_random := false, original_url := none,
    checksum := some etag }

/-- `publish_to_local_videos`: read the temp file, compare its hex MD5
with `etag` (abort before any write on mismatch), copy temp → cache,
remove the temp file (failure logged, non-fatal), then write the
synthetic `metadata.json`.  Returns the disk after the call and `true`
for `Ok(())`. -/
def publish_to_local_videos (md5bytes : List Nat → Str) (fl : PublishFaults)
    (d : Disk) (id : Nat) (metadata_json cache_file download_tmp etag : Str) :
    Disk × Bool :=
  match (if fl.readOk then d download_tmp else none) with
  | some (.bytes content) =>
    let md5 := md5bytes content
    if md5 ≠ etag then (d, false)
    else if fl.copyOk then
      let d1 := diskWrite d cache_file (some (.bytes content))
      let d2 := if fl.removeOk then diskWrite d1 download_tmp none else d1
      if fl.writeMetaOk then
        (diskWrite d2 metadata_json (some (.songJson (mkPublishedSong id etag))), true)
      else (d2, false)
    else (d, false)
  | _ => (d, false)

/-- One item of the upstream byte stream: a successfully read chunk, or
a read error. -/
inductive StreamItem where
  | chunk (bs : List Nat)
  | errItem
deriving DecidableEq

/-- Fault flags for the body pump of `inspecting`: per-chunk success of
`file.write_all` and of `file.sync_all`, plus the publish faults. -/
structure TeeFaults where
  writeOk : Nat → Bool
  syncOk : Nat → Bool
  pf : PublishFaults

/-- Appends bytes to the open temp file (the tee target).  The source
opens the file with `.write(true).create(true)`; the handle writes
sequentially from the start, modelled as append-to-content. -/
def appendFile (d : Disk) (p : Str) (bs : List Nat) : Disk :=
  match d p with
  | some (.bytes old) => diskWrite d p (some (.bytes (old ++ bs)))
  | _ => diskWrite d p (some (.bytes bs))

/-- The `inspecting` body pump: for each upstream item, an `Err` chunk
logs and breaks the loop (nothing further is yielded), and an `Ok` chunk
is appended to the temp file (a write failure is only logged; the
progress counter advances only on success), triggers fsync-and-publish
once `total_written ≥ expected_size`, and is yielded downstream in all
cases.  Returns the yielded chunks and the final disk. -/
def inspecting (md5bytes : List Nat → Str) (tf : TeeFaults)
    (expected_size : Nat) (id : Nat)
    (download_tmp cache_file metadata_json etag : Str) :
    List StreamItem → Nat → Nat → Disk → List (List Nat) × Disk
  | [], _, _, d => ([], d)
  | .errItem :: _, _, _, d => ([], d)
  | .chunk bs :: rest, idx, total, d =>
    if tf.writeOk idx then
      let d1 := appendFile d download_tmp bs
      let total1 := total + bs.length
      let d2 :=
        if total1 ≥ expected_size then
          if tf.syncOk idx then
            (publish_to_local_videos md5bytes tf.pf d1 id metadata_json
              cache_file download_tmp etag).1
          else d1
        else d1
      let r := inspecting md5bytes tf expected_size id download_tmp cache_file
        metadata_json etag rest (idx + 1) total1 d2
      (bs :: r.1, r.2)
    else
      let r := inspecting md5bytes tf expected_size id download_tmp cache_file
        metadata_json etag rest (idx + 1) total d
      (bs :: r.1, r.2)

/-- The body selected by `response_to_reply`: either the inspecting tee,
or the plain upstream stream when no dump is requested or the temp file
cannot be opened. -/
inductive BodyChoice where
  | inspected (downstream : List (List Nat))
  | plain (upstream : List StreamItem)

/-- Body selection of `response_to_reply`: with dump options and an
openable temp file the tee runs; if opening `download_tmp` fails the
response degrades to plain proxying; without dump options it always
proxies plainly.  Returns the body and the final disk. -/
def response_to_reply_body (md5bytes : List Nat → Str) (tf : TeeFaults)
    (dump : Bool) (openOk : Bool) (expected_size : Nat) (id : Nat)
    (download_tmp cache_file metadata_json etag : Str)
    (upstream : List StreamItem) (d : Disk) : BodyChoice × Disk :=
  if dump then
    if openOk then
      let r := inspecting md5bytes tf expected_size id download_tmp cache_file
        metadata_json etag upstream 0 0 d
      (.inspected r.1, r.2)
    else (.plain upstream, d)
  else (.plain upstream, d)

/-- The chunks of the upstream stream that precede its first error: what
the downstream body is expected to carry (spec side of the tee claim). -/
def chunksBeforeErr : List StreamItem → List (List Nat)
  | [] => []
  | .errItem :: _ => []
  | .chunk bs :: rest => bs :: chunksBeforeErr rest

/-! ## TimedMap (`src/types/timedmap/timedmap.rs`)

The map is modelled as an association list of `(key, Value)` pairs.
`value.rs` and `time.rs` of the forked timedmap module are not present in
the sources; per the spec, an entry is expired once `expires_at ≤ now`. -/

/-- Modelled from the spec: the `Value` wrapper of the missing
`timedmap/value.rs` — a payload with an absolute expiry instant
(`TimedEntry: (value, expires_at)`). -/
structure TMValue (V : Type) where
  value : V
  expires_at : Nat
deriving DecidableEq

/-- Modelled from the spec: `Value::is_expired` — expired once
`expires_at ≤ now` (the sweep removes entries whose `expires_at ≤ now`). -/
def tmIsExpiredAt {V : Type} (v : TMValue V) (now : Nat) : Bool :=
  v.expires_at ≤ now

/-- A `TimedMap` state: association list with at most one entry per key. -/
abbrev TMState (K V : Type) := List (K × TMValue V)

/-- `HashMap::get(key).cloned()` on the association list
(`get_value_unchecked`). -/
def tmGetUnchecked {K V : Type} [DecidableEq K] (m : TMState K V) (k : K) :
    Option (TMValue V) :=
  (m.find? fun kv => kv.1 = k).map fun kv => kv.2

/-- `HashMap::remove(key)` on the association list: the map without the
entry for `k`. -/
def tmEraseKey {K V : Type} [DecidableEq K] (m : TMState K V) (k : K) :
    TMState K V :=
  m.filter fun kv => ¬ kv.1 = k

/-- `TimedMap::remove`: removes the entry and returns its value only if
it was not expired (`Value::value_checked`, modelled from the spec). -/
def tmRemove {K V : Type} [DecidableEq K] (m : TMState K V) (k : K) (now : Nat) :
    Option V × TMState K V :=
  match tmGetUnchecked m k with
  | none => (none, m)
  | some v =>
    (if tmIsExpiredAt v now then none else some v.value, tmEraseKey m k)

/-- `TimedMap::get_value`: `none` on absence; an expired entry is removed
from the map and `none` is returned (lazy eviction). -/
def tmGetValue {K V : Type} [DecidableEq K] (m : TMState K V) (k : K) (now : Nat) :
    Option (TMValue V) × TMState K V :=
  match tmGetUnchecked m k with
  | none => (none, m)
  | some v =>
    if tmIsExpiredAt v now then (none, (tmRemove m k now).2) else (some v, m)

/-- `TimedMap::get`: the payload of `get_value`. -/
def tmGet {K V : Type} [DecidableEq K] (m : TMState K V) (k : K) (now : Nat) :
    Option V × TMState K V :=
  let r := tmGetValue m k now
  (r.1.map fun v => v.value, r.2)

/-- `TimedMap::contains`: `get(key).is_some()`. -/
def tmContains {K V : Type} [DecidableEq K] (m : TMState K V) (k : K) (now : Nat) :
    Bool × TMState K V :=
  let r := tmGet m k now
  (r.1.isSome, r.2)

/-- `TimedMap::len`: counts only the entries that are not expired. -/
def tmLen {K V : Type} (m : TMState K V) (now : Nat) : Nat :=
  (m.filter fun kv => ¬ tmIsExpiredAt kv.2 now).length

/-- `TimedMap::is_empty`: the source tests `m.len() == 0` on the raw
map, counting expired entries as well. -/
def tmIsEmpty {K V : Type} (m : TMState K V) : Bool :=
  m.length == 0

/-- `TimedMap::clear`. -/
def tmClear {K V : Type} (_ : TMState K V) : TMState K V := []

/-! ## Router (`src/http/mod.rs`, the `aya_videos` route) -/

/-- Outcome of the `/api/{v}/videos/{id}.mp4` handler: a rejection
(rendered 400 by `handle_rejection`) or a 302 with a `Location`. -/
inductive AyaResponse where
  | rejectNoClientIP
  | rejectBadVideoId
  | found (location : Str)
deriving DecidableEq

/-- The `aya_videos` handler: requires a client IP, parses the id from
`{id}.mp4` (`trim_end_matches(".mp4")` then `parse::<u32>`), and calls
`serve_token` with the EMPTY user-agent string `""`; a Hit yields
`/v/{id}-{checksum}.mp4?auth={token}&t=aya&auth_key={token}`, a Miss the
upstream fallback URL. -/
def aya_videos_handler (md5hex : Str → Str) (fs : Fs)
    (video_path video_override_path secret : Str)
    (id_mp4 : Str) (remote : Option IpAddr) (now : Int) : AyaResponse :=
  match remote with
  | none => .rejectNoClientIP
  | some ip =>
    match parseU32 (trimEndMatches id_mp4 (str ".mp4")) with
    | none => .rejectBadVideoId
    | some id =>
      match serve_token md5hex fs video_path video_override_path secret id ip [] now with
      | .miss =>
        .found (str "https://api.udon.dance/Api/Songs/play?id=" ++ natRepr id)
      | .hit token checksum _ _ _ =>
        .found (str "/v/" ++ natRepr id ++ '-' :: (checksum ++ str ".mp4?auth="
          ++ token ++ str "&t=aya&auth_key=" ++ token))

/-- C5 witness filesystem: only the override file for id 7 exists. -/
def fsOverrideOnly : Fs :=
  { present := fun p => decide (p = overrideMp4Path (str "/o") 7),
    fileLen := fun _ => none, mtimeSecs := fun _ => none,
    readSong := fun _ => none }


/-- A canonical cache entry for id 1 with checksum `"c"`, used by the C4
theorems. -/
def songC : Song :=
  { id := 1, category := 0, title := [], category_name := [], title_spell := [],
    player_index := 0, volume := 0, start := 0, stop := 0, flip := false,
    skip_random := false, original_url := none, checksum := some (str "c") }

/-- Filesystem with exactly the canonical pair for id 1. -/
def fsCanon1 : Fs :=
  { present := fun p =>
      decide (p = metadataJsonPath (str "/v") 1 ∨ p = videoMp4Path (str "/v") 1),
    fileLen := fun _ => none, mtimeSecs := fun _ => none,
    readSong := fun p =>
      if p = metadataJsonPath (str "/v") 1 then some songC else none }


/-! ## Lemmas on the string utilities -/

example : parseDigits (str "120") = some 120 := by decide
example : natRepr 120 = str "120" := by decide
example : splitOnDash (str "a--b") = [str "a", [], str "b"] := by decide
example : strReplace (str "bytes=0-5") (str "bytes=") [] = str "0-5" := by decide
example : trimEndMatches (str "42.mp4") (str ".mp4") = str "42" := by decide
example : base64urlEncode (strBytes [Char.ofNat 65533]) = str "77-9" := by decide
example : parseI64 (str "-12") = some (-12) := by decide


example : rangeNoUnderflow (some (str "bytes=5-3")) 100 = false := by decide
example : rangeNoUnderflow none 0 = false := by decide
example : rangeNoUnderflow (some (str "bytes=0-3")) 2 = true := by decide
example :
    internal_get_range (some [7, 8, 9]) (some (str "bytes=1-2")) =
      .response 206 2 (str "bytes 1-2/3") (some [8, 9]) := by decide
example :
    internal_get_range (some [7, 8, 9]) none =
      .response 200 3 (str "bytes 0-2/3") (some [7, 8, 9]) := by decide
example :
    internal_get_range (some []) none =
      .response 200 0 (str "bytes 0-18446744073709551615/0") (some []) := by decide




theorem splitOnDash_ne_nil (s : Str) : splitOnDash s ≠ [] := by
  match s with
  | [] => simp [splitOnDash]
  | c :: rest =>
    by_cases h : c = '-'
    · simp [splitOnDash, h]
    · simp only [splitOnDash, h, if_false]
      cases hs : splitOnDash rest <;> simp

theorem splitOnDash_append (a b : Str) :
    splitOnDash (a ++ '-' :: b) = splitOnDash a ++ splitOnDash b := by
  induction a with
  | nil => simp [splitOnDash]
  | cons c rest ih =>
    by_cases h : c = '-'
    · simp [splitOnDash, h, ih]
    · simp only [List.cons_append, splitOnDash, h, if_false]
      simp only [List.append_eq]
      rw [ih]
      cases hs : splitOnDash rest with
      | nil => exact absurd hs (splitOnDash_ne_nil rest)
      | cons s ss => simp

theorem splitOnDash_no_dash (s : Str) (h : '-' ∉ s) : splitOnDash s = [s] := by
  induction s with
  | nil => rfl
  | cons c rest ih =>
    have hc : ¬ c = '-' := by
      intro hc
      exact h (by rw [hc]; exact List.mem_cons_self _ _)
    simp only [splitOnDash, hc, if_false]
    rw [ih (fun hm => h (List.mem_cons_of_mem _ hm))]

theorem digitChar_toNat (d : Nat) (h : d < 10) : (digitChar d).toNat = 48 + d := by
  interval_cases d <;> decide

theorem natDigitsAux_lt10 (fuel n : Nat) (h : n < fuel) :
    ∀ d ∈ natDigitsAux fuel n, d < 10 := by
  induction fuel generalizing n with
  | zero => omega
  | succ fuel ih =>
    intro d hd
    by_cases h10 : n < 10
    · simp [natDigitsAux, h10] at hd; omega
    · simp only [natDigitsAux, h10, if_false, List.mem_append] at hd
      rcases hd with hd | hd
      · refine ih (n / 10) ?_ d hd
        have := Nat.div_lt_self (by omega : 0 < n) (by omega : 1 < 10)
        omega
      · simp at hd; subst hd; exact Nat.mod_lt _ (by omega)

theorem natDigitsAux_ne_nil (fuel n : Nat) (h : n < fuel) :
    natDigitsAux fuel n ≠ [] := by
  cases fuel with
  | zero => omega
  | succ fuel =>
    by_cases h10 : n < 10 <;> simp [natDigitsAux, h10]

theorem natDigitsAux_foldl (fuel : Nat) :
    ∀ n acc, n < fuel →
      (natDigitsAux fuel n).foldl (fun a d => a * 10 + d) acc =
        acc * 10 ^ (natDigitsAux fuel n).length + n := by
  induction fuel with
  | zero => omega
  | succ fuel ih =>
    intro n acc h
    by_cases h10 : n < 10
    · simp [natDigitsAux, h10]
    · have hdiv : n / 10 < fuel := by
        have := Nat.div_lt_self (by omega : 0 < n) (by omega : 1 < 10)
        omega
      simp only [natDigitsAux, h10, if_false, List.foldl_append, List.foldl_cons,
        List.foldl_nil, List.length_append, List.length_cons, List.length_nil]
      rw [ih (n / 10) acc hdiv, pow_succ]
      have hexp : (acc * 10 ^ (natDigitsAux fuel (n / 10)).length + n / 10) * 10 + n % 10 =
          acc * (10 ^ (natDigitsAux fuel (n / 10)).length * 10) + (n / 10 * 10 + n % 10) := by
        ring
      rw [hexp]
      have hmod : n / 10 * 10 + n % 10 = n := by omega
      rw [hmod]

theorem natRepr_chars (n : Nat) :
    ∀ c ∈ natRepr n, 48 ≤ c.toNat ∧ c.toNat ≤ 57 := by
  intro c hc
  simp only [natRepr, natDigits, List.mem_map] at hc
  obtain ⟨d, hd, rfl⟩ := hc
  have h10 := natDigitsAux_lt10 (n + 1) n (by omega) d hd
  rw [digitChar_toNat d h10]
  omega

theorem natRepr_ne_nil (n : Nat) : natRepr n ≠ [] := by
  simp only [natRepr, natDigits]
  intro h
  exact natDigitsAux_ne_nil (n + 1) n (by omega) (List.map_eq_nil_iff.mp h)

theorem natRepr_no_dash (n : Nat) : '-' ∉ natRepr n := by
  intro h
  have := natRepr_chars n '-' h
  simp at this

theorem digitVal_digitChar (d : Nat) (h : d < 10) :
    digitVal (digitChar d) = some d := by
  unfold digitVal
  rw [digitChar_toNat d h, if_pos (by omega)]
  congr 1
  omega

theorem parseDigitsAux_map (ds : List Nat) :
    ∀ acc, (∀ d ∈ ds, d < 10) →
      parseDigitsAux acc (ds.map digitChar) =
        some (ds.foldl (fun a d => a * 10 + d) acc) := by
  induction ds with
  | nil => intro acc _; rfl
  | cons d rest ih =>
    intro acc h
    have hd : d < 10 := h d (by simp)
    simp only [List.map_cons, parseDigitsAux, digitVal_digitChar d hd]
    rw [ih (acc * 10 + d) (fun x hx => h x (by simp [hx]))]
    simp

theorem parseDigits_natRepr (n : Nat) : parseDigits (natRepr n) = some n := by
  have key : parseDigitsAux 0 (natRepr n) = some n := by
    have hall := natDigitsAux_lt10 (n + 1) n (by omega)
    have hmap := parseDigitsAux_map (natDigits n) 0 (fun d hd => hall d hd)
    simp only [natRepr, natDigits] at hmap ⊢
    rw [hmap, natDigitsAux_foldl (n + 1) n 0 (by omega)]
    simp
  rcases hrep : natRepr n with _ | ⟨c, rest⟩
  · exact absurd hrep (natRepr_ne_nil n)
  · rw [hrep] at key
    simpa [parseDigits] using key

theorem stripPlus_natRepr (n : Nat) : stripPlus (natRepr n) = natRepr n := by
  rcases hrep : natRepr n with _ | ⟨c, rest⟩
  · rfl
  · have hc : 48 ≤ c.toNat ∧ c.toNat ≤ 57 := by
      apply natRepr_chars n c; rw [hrep]; simp
    have hcp : ¬ c = '+' := by
      intro hx; subst hx; simp at hc
    simp [stripPlus, hcp]

theorem parseU64_natRepr (n : Nat) (h : n < 2 ^ 64) :
    parseU64 (natRepr n) = some n := by
  unfold parseU64
  rw [stripPlus_natRepr, parseDigits_natRepr, Option.some_bind, if_pos h]

theorem parseU32_natRepr (n : Nat) (h : n < 2 ^ 32) :
    parseU32 (natRepr n) = some n := by
  unfold parseU32
  rw [stripPlus_natRepr, parseDigits_natRepr, Option.some_bind, if_pos h]

theorem parseI64_natRepr (n : Nat) (h : n ≤ 2 ^ 63 - 1) :
    parseI64 (natRepr n) = some (n : Int) := by
  rcases hrep : natRepr n with _ | ⟨c, rest⟩
  · exact absurd hrep (natRepr_ne_nil n)
  · have hc : 48 ≤ c.toNat ∧ c.toNat ≤ 57 := by
      apply natRepr_chars n c; rw [hrep]; simp
    have hcm : ¬ c = '-' := by intro hx; subst hx; simp at hc
    have hcp : ¬ c = '+' := by intro hx; subst hx; simp at hc
    simp only [parseI64, hcm, hcp, if_false]
    rw [← hrep, parseDigits_natRepr, Option.some_bind, if_pos h]

theorem u64sub_of_le (a b : Nat) (hb : b ≤ a) (ha : a < 2 ^ 64) :
    u64sub a b = a - b := by
  unfold u64sub
  have h1 : a + 2 ^ 64 - b = (a - b) + 2 ^ 64 := by omega
  rw [h1, Nat.add_mod_right, Nat.mod_eq_of_lt (by omega)]

theorem u64add_of_lt (a b : Nat) (h : a + b < 2 ^ 64) : u64add a b = a + b := by
  unfold u64add
  exact Nat.mod_eq_of_lt h

/-! ## Token lemmas -/

theorem ipDisplay_no_dash (ip : IpAddr) : '-' ∉ ipDisplay ip := by
  obtain ⟨a, b, c, d⟩ := ip
  intro h
  simp only [ipDisplay, List.mem_append, List.mem_cons] at h
  rcases h with h | h | h
  · have := natRepr_chars a '-' h; simp at this
  · simp at h
  · rcases h with h | h | h
    · have := natRepr_chars b '-' h; simp at this
    · simp at h
    · rcases h with h | h | h
      · have := natRepr_chars c '-' h; simp at this
      · simp at h
      · have := natRepr_chars d '-' h; simp at this

theorem uid_no_dash (ip : IpAddr) : '-' ∉ generate_uid_from_client_ip ip := by
  intro h
  simp only [generate_uid_from_client_ip, List.mem_map] at h
  obtain ⟨c, hc, hf⟩ := h
  by_cases hdot : c = '.'
  · simp [hdot] at hf
  · simp only [hdot, if_false] at hf
    subst hf
    exact ipDisplay_no_dash ip hc

theorem intRepr_nonneg (i : Int) (h : 0 ≤ i) : intRepr i = natRepr i.toNat := by
  unfold intRepr
  rw [if_neg (by omega)]

theorem decode_token_extend (token suffix : Str) (q : Str × Str × Str × Str)
    (h : decode_token token = some q) :
    decode_token (token ++ '-' :: suffix) = some q := by
  unfold decode_token at h ⊢
  rw [splitOnDash_append]
  rcases hsp : splitOnDash token with _ | ⟨t0, l1⟩
  · exact absurd hsp (splitOnDash_ne_nil token)
  rcases l1 with _ | ⟨t1, l2⟩
  · rw [hsp] at h; exact absurd h (by simp)
  rcases l2 with _ | ⟨t2, l3⟩
  · rw [hsp] at h; exact absurd h (by simp)
  rcases l3 with _ | ⟨t3, rest⟩
  · rw [hsp] at h; exact absurd h (by simp)
  · rw [hsp] at h
    simpa using h

theorem decode_token_encode (sign sign_ts rand uid : Str)
    (h1 : '-' ∉ sign_ts) (h2 : '-' ∉ rand) (h3 : '-' ∉ uid) (h4 : '-' ∉ sign) :
    decode_token (encode_token sign sign_ts rand uid) = some (sign, sign_ts, rand, uid) := by
  unfold decode_token encode_token
  rw [splitOnDash_append, splitOnDash_append, splitOnDash_append,
    splitOnDash_no_dash _ h1, splitOnDash_no_dash _ h2,
    splitOnDash_no_dash _ h3, splitOnDash_no_dash _ h4]
  simp

theorem decode_sign_ts_intRepr (ts0 : Int) (h0 : 0 ≤ ts0) (h63 : ts0 < 2 ^ 63) :
    decode_sign_ts (intRepr ts0) = some ts0 := by
  unfold decode_sign_ts
  have hb : ts0.toNat ≤ 2 ^ 63 - 1 := by omega
  rw [intRepr_nonneg ts0 h0, parseI64_natRepr _ hb]
  congr 1
  omega

/-- C1 (amended): the encode/verify round trip, for user agents whose
URL-safe base64 is free of `'-'` and non-negative encoding timestamps
(so that no token field contains the separator), quantified over any
hex-MD5 function with dash-free output.  Acceptance holds exactly when
`now - ts₀ ≤ token_valid_seconds`. -/
theorem token_round_trip (md5hex : Str → Str) (hm : ∀ s, '-' ∉ md5hex s)
    (secret checksum : Str) (id : Nat) (user_agent : Str) (remote : IpAddr)
    (ts0 : Int) (hts0 : 0 ≤ ts0) (hts63 : ts0 < 2 ^ 63)
    (hrand : '-' ∉ generate_rand_from_user_agent user_agent)
    (token_valid_seconds now : Int) :
    verify_token md5hex
      (encode_token
        (generate_sign md5hex secret id checksum (intRepr ts0)
          (generate_rand_from_user_agent user_agent)
          (generate_uid_from_client_ip remote))
        (intRepr ts0) (generate_rand_from_user_agent user_agent)
        (generate_uid_from_client_ip remote))
      secret id checksum token_valid_seconds now = true ↔
      now - ts0 ≤ token_valid_seconds := by
  have hnd_ts : '-' ∉ intRepr ts0 := by
    rw [intRepr_nonneg ts0 hts0]; exact natRepr_no_dash _
  have hdec := decode_token_encode
    (generate_sign md5hex secret id checksum (intRepr ts0)
      (generate_rand_from_user_agent user_agent)
      (generate_uid_from_client_ip remote))
    (intRepr ts0) (generate_rand_from_user_agent user_agent)
    (generate_uid_from_client_ip remote)
    hnd_ts hrand (uid_no_dash remote) (hm _)
  unfold verify_token
  simp only [hdec]
  rw [if_neg (fun hcon => hcon rfl)]
  simp only [decode_sign_ts_intRepr ts0 hts0 hts63]
  by_cases hgt : now - ts0 > token_valid_seconds
  · simp only [hgt, if_true, if_pos hgt]
    constructor
    · intro h; exact absurd h (by simp)
    · intro h; omega
  · simp only [if_neg hgt]
    constructor
    · intro _; omega
    · intro _; trivial

/-- C1 witness: a concrete instantiation of the round trip. -/
theorem token_round_trip_witness :
    verify_token (fun _ => str "ee")
      (encode_token
        (generate_sign (fun _ => str "ee") (str "sec") 2 (str "abc") (intRepr 3)
          (generate_rand_from_user_agent (str "ua"))
          (generate_uid_from_client_ip (.v4 1 2 3 4)))
        (intRepr 3) (generate_rand_from_user_agent (str "ua"))
        (generate_uid_from_client_ip (.v4 1 2 3 4)))
      (str "sec") 2 (str "abc") 100 50 = true :=
  (token_round_trip (fun _ => str "ee")
    (by intro s; show '-' ∉ str "ee"; decide) (str "sec") (str "abc")
    2 (str "ua") (.v4 1 2 3 4) 3 (by decide) (by decide) (by decide) 100 50).mpr
    (by decide)

/-- C1 counterexample to the claim as stated: for the one-character user
agent U+FFFD the URL-safe base64 is `77-9`, whose `'-'` shifts the token
fields under `decode_token`, so a freshly encoded token is rejected even
though `ts - ts₀ = 0 ≤ token_valid_seconds`. -/
theorem token_round_trip_counterexample :
    ((0 : Int) - 0 ≤ 100) ∧
    verify_token (fun _ => str "aa")
      (encode_token
        (generate_sign (fun _ => str "aa") (str "s") 1 (str "c") (intRepr 0)
          (generate_rand_from_user_agent [Char.ofNat 65533])
          (generate_uid_from_client_ip (.v4 9 9 9 9)))
        (intRepr 0) (generate_rand_from_user_agent [Char.ofNat 65533])
        (generate_uid_from_client_ip (.v4 9 9 9 9)))
      (str "s") 1 (str "c") 100 0 = false := by
  constructor
  · decide
  · decide

/-- C9: `decode_token` reads only the first four dash-separated fields,
so appending `-{suffix}` to any accepted token leaves it accepted with
the same outcome. -/
theorem token_trailing_fields (md5hex : Str → Str) (token secret : Str)
    (id : Nat) (checksum : Str) (tvs now : Int) (suffix : Str)
    (h : verify_token md5hex token secret id checksum tvs now = true) :
    verify_token md5hex (token ++ '-' :: suffix) secret id checksum tvs now = true := by
  unfold verify_token at h ⊢
  cases hdec : decode_token token with
  | none => rw [hdec] at h; simp at h
  | some q =>
    rw [hdec] at h
    rw [decode_token_extend token suffix q hdec]
    exact h

/-- C9 witness: a concrete accepted token stays accepted after a junk
trailing field is appended. -/
theorem token_trailing_fields_witness :
    verify_token (fun _ => str "s") (str "0-r-u-s") (str "x") 1 (str "c") 10 0 = true ∧
    verify_token (fun _ => str "s") (str "0-r-u-s" ++ '-' :: str "junk")
      (str "x") 1 (str "c") 10 0 = true :=
  ⟨by decide,
    token_trailing_fields (fun _ => str "s") (str "0-r-u-s") (str "x") 1 (str "c")
      10 0 (str "junk") (by decide)⟩

/-- C5: resolve priority — the override file shadows the canonical pair
unconditionally; otherwise the canonical pair is returned exactly when
both of its files exist, and `Unavailable` carries the would-be paths. -/
theorem cache_resolve_priority (fs : Fs) (video_path video_override_path : Str)
    (id : Nat) :
    (fs.present (overrideMp4Path video_override_path id) = true →
      get_video_file_path fs video_path video_override_path id =
        .available (.videoOverride (overrideMp4Path video_override_path id))) ∧
    (fs.present (overrideMp4Path video_override_path id) = false →
      ((fs.present (metadataJsonPath video_path id) = true ∧
          fs.present (videoMp4Path video_path id) = true) →
        get_video_file_path fs video_path video_override_path id =
          .available (.video (videoMp4Path video_path id)
            (metadataJsonPath video_path id))) ∧
      (¬ (fs.present (metadataJsonPath video_path id) = true ∧
          fs.present (videoMp4Path video_path id) = true) →
        get_video_file_path fs video_path video_override_path id =
          .unavailable (videoMp4Path video_path id)
            (metadataJsonPath video_path id))) := by
  unfold get_video_file_path
  refine ⟨fun h1 => ?_, fun h1 => ⟨fun h2 => ?_, fun h2 => ?_⟩⟩ <;> simp_all

/-- C5 witness: with the override file present, resolution returns it. -/
theorem cache_resolve_priority_witness :
    get_video_file_path fsOverrideOnly (str "/v") (str "/o") 7 =
      .available (.videoOverride (overrideMp4Path (str "/o") 7)) :=
  (cache_resolve_priority fsOverrideOnly (str "/v") (str "/o") 7).1 (by decide)

/-- C6: `serve_local_cache` — the `satisfied` flag is true iff resolution
yields the override, or yields the canonical pair with matching
`video.mp4` size and matching `metadata.json` checksum (a missing or
unparseable metadata file yields false); and the returned download-temp
path is always `{cache_path}/{port}_{file}`. -/
theorem serve_local_cache_spec (fs : Fs) (vp op cp : Str) (id : Nat)
    (file md5 : Str) (size port : Nat) :
    ((serve_local_cache fs vp op cp id file md5 size port).2.2.2 = true ↔
      ((∃ vf, get_video_file_path fs vp op id = .available (.videoOverride vf)) ∨
        (∃ vf mf, get_video_file_path fs vp op id = .available (.video vf mf) ∧
          (fs.fileLen vf).getD 0 = size ∧
          (fs.readSong mf).bind Song.checksum = some md5))) ∧
    (serve_local_cache fs vp op cp id file md5 size port).1 =
      cp ++ '/' :: (natRepr port ++ '_' :: file) := by
  unfold serve_local_cache
  rcases hg : get_video_file_path fs vp op id with v | ⟨vf, mf⟩
  · rcases v with ⟨vf, mf⟩ | ⟨vf⟩
    · by_cases hsz : (fs.fileLen vf).getD 0 ≠ size
      · simp [hg, hsz]
      · rcases hrs : fs.readSong mf with _ | song
        · simp [hg, hsz, hrs]
        · rcases hck : song.checksum with _ | c
          · simp [hg, hsz, hrs, hck]
          · by_cases hmd : c = md5
            · simp only [hg, hsz, hrs, hck, hmd]
              simp [hg, hsz, hrs, hck, hmd]
              refine ⟨vf, mf, ⟨rfl, rfl⟩, by omega, ?_⟩
              rw [hrs]
              simp [hck, hmd]
            · simp [hg, hsz, hrs, hck, hmd]
    · simp [hg]
  · simp [hg]

/-- C7 (code bug): with a single already-expired entry
(`expires_at = 0`, `now = 5`), `len` counts zero live entries, yet
`is_empty` — which tests the raw map length — returns `false`,
contradicting its own documentation ("Returns true when the map does not
contain any non-expired key-value pair"). -/
theorem timedmap_is_empty_bug :
    tmLen ([((0 : Nat), (⟨0, 0⟩ : TMValue Nat))] : TMState Nat Nat) 5 = 0 ∧
    tmIsEmpty ([((0 : Nat), (⟨0, 0⟩ : TMValue Nat))] : TMState Nat Nat) = false := by
  constructor <;> decide

/-! ## Range lemmas -/

theorem strReplaceAux_no_b (rep : Str) (fuel : Nat) :
    ∀ s : Str, (∀ c ∈ s, c ≠ 'b') →
      strReplaceAux fuel s (str "bytes=") rep = s := by
  induction fuel with
  | zero => intro s _; rfl
  | succ fuel ih =>
    intro s hs
    match s with
    | [] => rfl
    | c :: rest =>
      have hc : c ≠ 'b' := hs c (by simp)
      have hnp : ¬ ((str "bytes=") ≠ [] ∧ (str "bytes=").isPrefixOf (c :: rest)) := by
        rintro ⟨-, hpre⟩
        have := List.isPrefixOf_iff_prefix.mp hpre
        rw [show str "bytes=" = 'b' :: str "ytes=" from rfl,
          List.cons_prefix_cons] at this
        exact hc this.1.symm
      simp only [strReplaceAux, hnp, if_false]
      rw [ih rest (fun x hx => hs x (List.mem_cons_of_mem _ hx))]

theorem strReplaceAux_prefix_step (fuel : Nat) (t pat rep : Str) (hp : pat ≠ []) :
    strReplaceAux (fuel + 1) (pat ++ t) pat rep =
      rep ++ strReplaceAux fuel ((pat ++ t).drop pat.length) pat rep := by
  rcases pat with _ | ⟨p, ps⟩
  · exact absurd rfl hp
  · have hpre : (p :: ps).isPrefixOf ((p :: ps) ++ t) = true :=
      List.isPrefixOf_iff_prefix.mpr (List.prefix_append _ _)
    have hcond : (p :: ps) ≠ [] ∧ (p :: ps).isPrefixOf (p :: (ps ++ t)) = true := by
      exact ⟨by simp, hpre⟩
    simp only [List.cons_append, strReplaceAux, hcond, and_self, if_true]
    simp

theorem strReplace_bytes_eq (t : Str) (ht : ∀ c ∈ t, c ≠ 'b') :
    strReplace (str "bytes=" ++ t) (str "bytes=") [] = t := by
  unfold strReplace
  rw [strReplaceAux_prefix_step ((str "bytes=" ++ t).length) t (str "bytes=") []
    (by decide)]
  rw [show (str "bytes=" ++ t).drop (str "bytes=").length = t from List.drop_left _ _]
  simp only [List.nil_append]
  exact strReplaceAux_no_b [] _ t ht

theorem natRepr_ne_b (n : Nat) : ∀ c ∈ natRepr n, c ≠ 'b' := by
  intro c hc he
  have := natRepr_chars n c hc
  rw [he] at this
  simp at this

theorem rangeSegments_two (a b : Nat) :
    rangeSegments (str "bytes=" ++ (natRepr a ++ '-' :: natRepr b)) =
      [natRepr a, natRepr b] := by
  unfold rangeSegments
  rw [strReplace_bytes_eq (natRepr a ++ '-' :: natRepr b)
    (by
      intro c hc
      rcases List.mem_append.mp hc with h | h
      · exact natRepr_ne_b a c h
      · rcases List.mem_cons.mp h with h | h
        · rw [h]; decide
        · exact natRepr_ne_b b c h)]
  rw [splitOnDash_append _ _, splitOnDash_no_dash _ (natRepr_no_dash a),
    splitOnDash_no_dash _ (natRepr_no_dash b)]
  have ha := List.length_pos.mpr (natRepr_ne_nil a)
  have hb := List.length_pos.mpr (natRepr_ne_nil b)
  simp [List.filter, ha, hb]

theorem rangeSegments_one (a : Nat) :
    rangeSegments (str "bytes=" ++ (natRepr a ++ ['-'])) = [natRepr a] := by
  unfold rangeSegments
  rw [strReplace_bytes_eq (natRepr a ++ ['-'])
    (by
      intro c hc
      rcases List.mem_append.mp hc with h | h
      · exact natRepr_ne_b a c h
      · rcases List.mem_cons.mp h with h | h
        · rw [h]; decide
        · simp at h)]
  rw [show (natRepr a ++ ['-'] : Str) = natRepr a ++ '-' :: [] from rfl]
  rw [splitOnDash_append _ _, splitOnDash_no_dash _ (natRepr_no_dash a)]
  have ha := List.length_pos.mpr (natRepr_ne_nil a)
  simp [splitOnDash, List.filter, ha]

theorem pumpBody_eq (f : List Nat) (bc : Nat) (hbc : bc < 2 ^ 64) :
    ∀ cycles pos sent, sent ≤ bc → bc - sent ≤ cycles * 16384 →
      pos + (bc - sent) ≤ f.length →
      pumpBody f bc cycles pos sent = some ((f.drop pos).take (bc - sent)) := by
  intro cycles
  induction cycles with
  | zero =>
    intro pos sent h1 h2 h3
    have h0 : bc - sent = 0 := by omega
    simp [pumpBody, h0]
  | succ cycles ih =>
    intro pos sent h1 h2 h3
    have hsub : u64sub bc sent = bc - sent := u64sub_of_le bc sent h1 hbc
    have hre : readExact f pos (min (bc - sent) 16384) =
        some ((f.drop pos).take (min (bc - sent) 16384)) := by
      unfold readExact
      rw [if_pos (by omega)]
    have hih := ih (pos + min (bc - sent) 16384) (sent + min (bc - sent) 16384)
      (by omega) (by omega) (by omega)
    simp only [pumpBody, hsub, hre, hih]
    set k := min (bc - sent) 16384 with hkdef
    set n := bc - (sent + k) with hndef
    have hbs : bc - sent = k + n := by omega
    have hdd : (List.drop pos f).drop k = f.drop (pos + k) := by
      rw [List.drop_drop]
    rw [hbs, List.take_add, hdd]

/-- C2: Range correctness — on every readable file (of u64 size,
including the empty file), a valid `bytes=a-b` request with
`0 ≤ a ≤ b < N` yields a 206 with `Content-Length = b - a + 1`,
`Content-Range: bytes a-b/N`, and a body equal to `file[a..=b]`; and a
request without a Range header — with no restriction on the file —
yields a 200 whose body is the whole file with `Content-Length = N`. -/
theorem range_correctness (f : List Nat) (hN : f.length < 2 ^ 64) :
    (∀ a b, a ≤ b → b < f.length →
      internal_get_range (some f)
          (some (str "bytes=" ++ (natRepr a ++ '-' :: natRepr b))) =
        .response 206 (b - a + 1)
          (str "bytes " ++ natRepr a ++ '-' :: (natRepr b ++ '/' :: natRepr f.length))
          (some ((f.drop a).take (b - a + 1)))) ∧
    internal_get_range (some f) none =
      .response 200 f.length
        (str "bytes " ++ natRepr 0 ++ '-' ::
          (natRepr (u64sub f.length 1) ++ '/' :: natRepr f.length))
        (some f) := by
  constructor
  · intro a b hab hbN
    have hparams : get_range_params
        (some (str "bytes=" ++ (natRepr a ++ '-' :: natRepr b))) f.length = .ok (a, b) := by
        simp only [get_range_params, rangeSegments_two,
          parseU64_natRepr a (by omega), parseU64_natRepr b (by omega)]
    have hsub : u64sub b a = b - a := u64sub_of_le b a hab (by omega)
    have hadd : u64add (b - a) 1 = b - a + 1 := u64add_of_lt _ _ (by omega)
    have hbody := pumpBody_eq f (b - a + 1) (by omega)
      ((b - a + 1) / 16384 + 1) a 0 (by omega) (by omega) (by omega)
    simp only [internal_get_range, hparams, hsub, hadd, Nat.sub_zero] at hbody ⊢
    rw [hbody]
    simp
  · have hparams : get_range_params none f.length = .ok (0, u64sub f.length 1) := rfl
    rcases Nat.eq_zero_or_pos f.length with h0 | hpos
    · have hf : f = [] := List.length_eq_zero.mp h0
      subst hf
      decide
    · have hsub1 : u64sub f.length 1 = f.length - 1 :=
        u64sub_of_le _ _ (by omega) (by omega)
      have hsub0 : u64sub (f.length - 1) 0 = f.length - 1 :=
        u64sub_of_le _ _ (by omega) (by omega)
      have hadd : u64add (f.length - 1) 1 = f.length := by
        rw [u64add_of_lt _ _ (by omega)]
        omega
      have hbody := pumpBody_eq f f.length (by omega)
        (f.length / 16384 + 1) 0 0 (by omega) (by omega) (by omega)
      simp only [internal_get_range, hparams, hsub1, hsub0, hadd, Nat.sub_zero] at hbody ⊢
      rw [hbody]
      simp

/-- C2 witness: a concrete three-byte file with range `bytes=1-2` and
without a Range header, and the empty file without a Range header. -/
theorem range_correctness_witness :
    internal_get_range (some [7, 8, 9])
        (some (str "bytes=" ++ (natRepr 1 ++ '-' :: natRepr 2))) =
      .response 206 (2 - 1 + 1)
        (str "bytes " ++ natRepr 1 ++ '-' ::
          (natRepr 2 ++ '/' :: natRepr (List.length [7, 8, 9])))
        (some (([7, 8, 9].drop 1).take (2 - 1 + 1))) ∧
    internal_get_range (some [7, 8, 9]) none =
      .response 200 (List.length [7, 8, 9])
        (str "bytes " ++ natRepr 0 ++ '-' ::
          (natRepr (u64sub (List.length [7, 8, 9]) 1) ++ '/' ::
            natRepr (List.length [7, 8, 9])))
        (some [7, 8, 9]) ∧
    internal_get_range (some ([] : List Nat)) none =
      .response 200 (List.length ([] : List Nat))
        (str "bytes " ++ natRepr 0 ++ '-' ::
          (natRepr (u64sub (List.length ([] : List Nat)) 1) ++ '/' ::
            natRepr (List.length ([] : List Nat))))
        (some ([] : List Nat)) :=
  ⟨(range_correctness [7, 8, 9] (by decide)).1 1 2 (by decide) (by decide),
    (range_correctness [7, 8, 9] (by decide)).2,
    (range_correctness [] (by decide)).2⟩

/-- C8 counterexample to the claim as stated: the header `bytes=5-3` has
two endpoints that parse as u64, yet `byte_count = end - start + 1`
underflows (start > end), so the underflow-freedom claim fails. -/
theorem range_underflow_counterexample :
    parseU64 (str "5") = some 5 ∧ parseU64 (str "3") = some 3 ∧
    rangeNoUnderflow (some (str "bytes=5-3")) 100 = false := by
  refine ⟨by decide, by decide, by decide⟩

/-- C8 (amended): characterisation of underflow-freedom on the
`internal_get_range` path — with both endpoints given it holds iff
`a ≤ b`; with only a start endpoint, or no Range header at all, the
defaulted `end = size - 1` additionally requires `size ≥ 1`. -/
theorem range_no_underflow_characterisation (size a b : Nat)
    (ha : a < 2 ^ 64) (hb : b < 2 ^ 64) :
    (rangeNoUnderflow (some (str "bytes=" ++ (natRepr a ++ '-' :: natRepr b))) size =
      decide (a ≤ b)) ∧
    (rangeNoUnderflow (some (str "bytes=" ++ (natRepr a ++ ['-']))) size =
      decide (1 ≤ size ∧ a ≤ size - 1)) ∧
    (rangeNoUnderflow none size = decide (1 ≤ size)) := by
  refine ⟨?_, ?_, ?_⟩
  · simp only [rangeNoUnderflow, get_range_params_ck, rangeSegments_two,
      parseU64_natRepr a ha, parseU64_natRepr b hb]
  · simp only [rangeNoUnderflow, get_range_params_ck, rangeSegments_one,
      parseU64_natRepr a ha, checkedSub]
    by_cases h0 : 1 ≤ size
    · simp [h0]
    · simp [h0]
  · simp only [rangeNoUnderflow, get_range_params_ck, checkedSub]
    by_cases h0 : 1 ≤ size
    · simp [h0]
    · simp [h0]

/-- C8 witness: concrete instantiation of the characterisation at
`size = 10`, `a = 2`, `b = 4`. -/
theorem range_no_underflow_witness :
    rangeNoUnderflow (some (str "bytes=" ++ (natRepr 2 ++ '-' :: natRepr 4))) 10 =
      decide (2 ≤ 4) :=
  (range_no_underflow_characterisation 10 2 4 (by decide) (by decide)).1

/-- C3 (amended): `publish_to_local_videos` leaves the disk untouched on
a checksum mismatch (temp file left in place) and on I/O failures at or
before the copy; after a fully successful publish the cache file holds
the downloaded bytes, the metadata holds the synthetic `Song` whose
`checksum` is `expected_etag`, and the temp file is removed.  (A
metadata-write failure after the copy, and a failed temp-file removal,
are the deviations that force the amendment.) -/
theorem publish_atomicity (md5bytes : List Nat → Str) (fl : PublishFaults)
    (d : Disk) (id : Nat) (metadata_json cache_file download_tmp etag : Str)
    (content : List Nat) (hread : d download_tmp = some (.bytes content)) :
    (md5bytes content ≠ etag → fl.readOk = true →
      publish_to_local_videos md5bytes fl d id metadata_json cache_file
        download_tmp etag = (d, false)) ∧
    (fl.readOk = false →
      publish_to_local_videos md5bytes fl d id metadata_json cache_file
        download_tmp etag = (d, false)) ∧
    (md5bytes content = etag → fl.readOk = true → fl.copyOk = false →
      publish_to_local_videos md5bytes fl d id metadata_json cache_file
        download_tmp etag = (d, false)) ∧
    (md5bytes content = etag → fl.readOk = true → fl.copyOk = true →
      fl.removeOk = true → fl.writeMetaOk = true →
      metadata_json ≠ cache_file → metadata_json ≠ download_tmp →
      cache_file ≠ download_tmp →
      (publish_to_local_videos md5bytes fl d id metadata_json cache_file
          download_tmp etag).2 = true ∧
      (publish_to_local_videos md5bytes fl d id metadata_json cache_file
          download_tmp etag).1 cache_file = some (.bytes content) ∧
      (publish_to_local_videos md5bytes fl d id metadata_json cache_file
          download_tmp etag).1 metadata_json =
        some (.songJson (mkPublishedSong id etag)) ∧
      (publish_to_local_videos md5bytes fl d id metadata_json cache_file
          download_tmp etag).1 download_tmp = none ∧
      (mkPublishedSong id etag).checksum = some etag) := by
  refine ⟨fun hmm hro => ?_, fun hro => ?_, fun hok hro hco => ?_,
    fun hok hro hco hrm hwm hmc hmd hcd => ?_⟩
  · unfold publish_to_local_videos
    rw [hro]
    simp only [if_true, hread]
    rw [if_pos hmm]
  · unfold publish_to_local_videos
    rw [hro]
    simp
  · unfold publish_to_local_videos
    rw [hro]
    simp only [if_true, hread, hok, hco]
    simp
  · unfold publish_to_local_videos
    rw [hro]
    simp only [if_true, hread, hok, hco, hrm, hwm]
    simp only [ne_eq, not_true_eq_false, if_false, if_true]
    refine ⟨?_, ?_, ?_, ?_, rfl⟩
    · simp
    · simp only [diskWrite]
      rw [if_neg (fun h => hmc h.symm), if_neg hcd]
      simp
    · simp [diskWrite]
    · simp [diskWrite, hmd.symm, hcd.symm]

/-- C3 counterexample to the claim as stated: a session whose metadata
write fails after the copy reports an I/O failure, yet the canonical
`video.mp4` has been replaced — the cache is not untouched. -/
theorem publish_atomicity_counterexample :
    (publish_to_local_videos (fun _ => str "e")
        ⟨true, true, true, false⟩
        (fun p => if p = str "/tmp/t" then some (.bytes [1]) else none)
        1 (str "/m") (str "/c") (str "/tmp/t") (str "e")).2 = false ∧
    (publish_to_local_videos (fun _ => str "e")
        ⟨true, true, true, false⟩
        (fun p => if p = str "/tmp/t" then some (.bytes [1]) else none)
        1 (str "/m") (str "/c") (str "/tmp/t") (str "e")).1 (str "/c") =
      some (.bytes [1]) ∧
    (if str "/c" = str "/tmp/t" then some (FileData.bytes [1]) else none) = none := by
  refine ⟨by decide, by decide, by decide⟩

/-- C3 witness: a fully successful publish on a concrete disk. -/
theorem publish_atomicity_witness :
    (publish_to_local_videos (fun _ => str "e") ⟨true, true, true, true⟩
        (fun p => if p = str "/t" then some (.bytes [1]) else none)
        1 (str "/m") (str "/c") (str "/t") (str "e")).2 = true ∧
    (publish_to_local_videos (fun _ => str "e") ⟨true, true, true, true⟩
        (fun p => if p = str "/t" then some (.bytes [1]) else none)
        1 (str "/m") (str "/c") (str "/t") (str "e")).1 (str "/c") =
      some (.bytes [1]) ∧
    (publish_to_local_videos (fun _ => str "e") ⟨true, true, true, true⟩
        (fun p => if p = str "/t" then some (.bytes [1]) else none)
        1 (str "/m") (str "/c") (str "/t") (str "e")).1 (str "/m") =
      some (.songJson (mkPublishedSong 1 (str "e"))) ∧
    (publish_to_local_videos (fun _ => str "e") ⟨true, true, true, true⟩
        (fun p => if p = str "/t" then some (.bytes [1]) else none)
        1 (str "/m") (str "/c") (str "/t") (str "e")).1 (str "/t") = none ∧
    (mkPublishedSong 1 (str "e")).checksum = some (str "e") :=
  (publish_atomicity (fun _ => str "e") ⟨true, true, true, true⟩
      (fun p => if p = str "/t" then some (.bytes [1]) else none)
      1 (str "/m") (str "/c") (str "/t") (str "e") [1] (by decide)).2.2.2
    (by decide) rfl rfl rfl rfl (by decide) (by decide) (by decide)

/-- C10: the tee pump yields every upstream chunk downstream unchanged
and in order up to the first upstream read error, for every fault
pattern of the cache writes; and when the temp file cannot be opened the
response body degrades to plain proxying with the disk untouched. -/
theorem tee_failure_isolation (md5bytes : List Nat → Str) (tf : TeeFaults)
    (es id : Nat) (dt cf mj etag : Str) (items : List StreamItem) :
    (∀ idx total d,
      (inspecting md5bytes tf es id dt cf mj etag items idx total d).1 =
        chunksBeforeErr items) ∧
    (∀ d : Disk,
      response_to_reply_body md5bytes tf true false es id dt cf mj etag items d =
        (.plain items, d)) := by
  constructor
  · induction items with
    | nil => intro idx total d; simp [inspecting, chunksBeforeErr]
    | cons it rest ih =>
      intro idx total d
      cases it with
      | errItem => simp [inspecting, chunksBeforeErr]
      | chunk bs =>
        by_cases hw : tf.writeOk idx <;>
          simp [inspecting, chunksBeforeErr, hw, ih]
  · intro d
    simp [response_to_reply_body]

/-! ## Router lemmas -/

theorem stripRevAux_prefix_step (fuel : Nat) (t pat : Str) (hp : pat ≠ []) :
    stripRevAux (fuel + 1) (pat ++ t) pat = stripRevAux fuel t pat := by
  have hcond : pat ≠ [] ∧ pat.isPrefixOf (pat ++ t) = true :=
    ⟨hp, List.isPrefixOf_iff_prefix.mpr (List.prefix_append _ _)⟩
  simp only [stripRevAux]
  rw [if_pos hcond, List.drop_left]

theorem stripRevAux_no_pre (fuel : Nat) (s pat : Str)
    (h : pat.isPrefixOf s = false) : stripRevAux fuel s pat = s := by
  cases fuel with
  | zero => rfl
  | succ fuel =>
    simp only [stripRevAux]
    rw [if_neg (fun hc => by rw [h] at hc; exact absurd hc.2 (by simp))]

theorem mp4rev_not_prefix_digits (n : Nat) :
    (str ".mp4").reverse.isPrefixOf ((natRepr n).reverse) = false := by
  have hmp4 : (str ".mp4").reverse = '4' :: 'p' :: 'm' :: '.' :: [] := by decide
  rcases hs : (natRepr n).reverse with _ | ⟨d1, rest1⟩
  · rw [hmp4]; rfl
  · rcases rest1 with _ | ⟨d2, rest2⟩
    · rw [hmp4]
      simp [List.isPrefixOf]
    · have hd2 : d2 ∈ natRepr n := by
        rw [← List.mem_reverse, hs]
        simp
      have hne : ¬ 'p' = d2 := by
        intro he
        have := natRepr_chars n d2 hd2
        rw [← he] at this
        simp at this
      rw [hmp4]
      simp [List.isPrefixOf, hne]

theorem trimEnd_natRepr_mp4 (n : Nat) :
    trimEndMatches (natRepr n ++ str ".mp4") (str ".mp4") = natRepr n := by
  unfold trimEndMatches
  rw [List.reverse_append]
  rw [stripRevAux_prefix_step _ _ _ (by decide)]
  rw [stripRevAux_no_pre _ _ _ (mp4rev_not_prefix_digits n)]
  exact List.reverse_reverse _

theorem aya_parse_id (id : Nat) (hid : id < 2 ^ 32) :
    parseU32 (trimEndMatches (natRepr id ++ str ".mp4") (str ".mp4")) = some id := by
  rw [trimEnd_natRepr_mp4, parseU32_natRepr id hid]

/-- C4 (amended): the `/api/{v}/videos/{id}.mp4` handler — the token is
issued with the EMPTY user-agent string (the route passes `""` to
`serve_token`, not the request's User-Agent); when the id resolves and
its checksum is readable the Location is
`/v/{id}-{checksum}.mp4?auth={token}&t=aya&auth_key={token}` with the
same token in both parameters; when the id does not resolve (or its
checksum cannot be read) the Location is the upstream fallback; a
missing client IP is rejected. -/
theorem aya_videos_spec (md5hex : Str → Str) (fs : Fs) (vp op secret : Str)
    (id : Nat) (hid : id < 2 ^ 32) (ip : IpAddr) (now : Int) :
    (∀ v c, get_video_file_path fs vp op id = .available v →
      get_video_file_checksum fs v = some c →
      aya_videos_handler md5hex fs vp op secret (natRepr id ++ str ".mp4")
          (some ip) now =
        .found (str "/v/" ++ natRepr id ++ '-' :: (c ++ str ".mp4?auth=" ++
          encode_token
            (generate_sign md5hex secret id c (intRepr now)
              (generate_rand_from_user_agent [])
              (generate_uid_from_client_ip ip))
            (intRepr now) (generate_rand_from_user_agent [])
            (generate_uid_from_client_ip ip) ++
          str "&t=aya&auth_key=" ++
          encode_token
            (generate_sign md5hex secret id c (intRepr now)
              (generate_rand_from_user_agent [])
              (generate_uid_from_client_ip ip))
            (intRepr now) (generate_rand_from_user_agent [])
            (generate_uid_from_client_ip ip)))) ∧
    (∀ vf mf, get_video_file_path fs vp op id = .unavailable vf mf →
      aya_videos_handler md5hex fs vp op secret (natRepr id ++ str ".mp4")
          (some ip) now =
        .found (str "https://api.udon.dance/Api/Songs/play?id=" ++ natRepr id)) ∧
    (∀ v, get_video_file_path fs vp op id = .available v →
      get_video_file_checksum fs v = none →
      aya_videos_handler md5hex fs vp op secret (natRepr id ++ str ".mp4")
          (some ip) now =
        .found (str "https://api.udon.dance/Api/Songs/play?id=" ++ natRepr id)) ∧
    (aya_videos_handler md5hex fs vp op secret (natRepr id ++ str ".mp4")
        none now = .rejectNoClientIP) := by
  refine ⟨fun v c hg hc => ?_, fun vf mf hg => ?_, fun v hg hc => ?_, rfl⟩
  · unfold aya_videos_handler
    rw [aya_parse_id id hid]
    unfold serve_token
    simp only [hg, hc]
  · unfold aya_videos_handler
    rw [aya_parse_id id hid]
    unfold serve_token
    simp only [hg]
  · unfold aya_videos_handler
    rw [aya_parse_id id hid]
    unfold serve_token
    simp only [hg, hc]

/-- C4 counterexample to the claim as stated: for a request carrying the
User-Agent `"X"`, the handler issues a token whose `rand` field is the
encoding of the empty string (it decodes to `""`), not the URL-safe
base64 `"WA"` of `"X"` — the route ignores the request's User-Agent. -/
theorem aya_videos_ua_counterexample :
    aya_videos_handler (fun _ => str "ff") fsCanon1 (str "/v") (str "/o")
        (str "sec") (str "1.mp4") (some (.v4 1 2 3 4)) 0 =
      .found (str "/v/1-c.mp4?auth=0--1_2_3_4-ff&t=aya&auth_key=0--1_2_3_4-ff") ∧
    decode_token (str "0--1_2_3_4-ff") =
      some (str "ff", str "0", [], str "1_2_3_4") ∧
    generate_rand_from_user_agent (str "X") = str "WA" ∧
    ([] : Str) ≠ str "WA" := by
  refine ⟨by decide, by decide, by decide, by decide⟩

/-- C4 witness: the hit case of the amended handler theorem at the
concrete canonical entry for id 1. -/
theorem aya_videos_spec_witness :
    aya_videos_handler (fun _ => str "ff") fsCanon1 (str "/v") (str "/o")
        (str "sec") (natRepr 1 ++ str ".mp4") (some (.v4 1 2 3 4)) 0 =
      .found (str "/v/" ++ natRepr 1 ++ '-' :: (str "c" ++ str ".mp4?auth=" ++
        encode_token
          (generate_sign (fun _ => str "ff") (str "sec") 1 (str "c") (intRepr 0)
            (generate_rand_from_user_agent [])
            (generate_uid_from_client_ip (.v4 1 2 3 4)))
          (intRepr 0) (generate_rand_from_user_agent [])
          (generate_uid_from_client_ip (.v4 1 2 3 4)) ++
        str "&t=aya&auth_key=" ++
        encode_token
          (generate_sign (fun _ => str "ff") (str "sec") 1 (str "c") (intRepr 0)
            (generate_rand_from_user_agent [])
            (generate_uid_from_client_ip (.v4 1 2 3 4)))
          (intRepr 0) (generate_rand_from_user_agent [])
          (generate_uid_from_client_ip (.v4 1 2 3 4)))) :=
  (aya_videos_spec (fun _ => str "ff") fsCanon1 (str "/v") (str "/o") (str "sec")
      1 (by decide) (.v4 1 2 3 4) 0).1
    (.video (videoMp4Path (str "/v") 1) (metadataJsonPath (str "/v") 1))
    (str "c") (by decide) (by decide)
